import Mathlib

/-!
Verification of the `yuwathi-proxy` HTTP relay (`src/app.py`) against its
natural-language specification.  The Python request pipeline (the `proxy`
view function), the URL validator `is_valid_target_url`, and the response
normalization steps (truncation, UTF-8-or-base64 encoding, hop-by-hop
header stripping) are shallowly embedded as executable Lean definitions,
and the specification claims are settled as theorems about them.

Conventions of the embedding:
* Parsed JSON values are the inductive `Json`; a parsed top-level payload
  that is a JSON object is an association list with distinct keys, in
  insertion order, exactly as a Python `dict` produced by `json.loads`.
* Python byte strings are `List Nat` with every element below 256.
* Python numbers (ints and floats) are modelled as `Rat`.
* Python exceptions that the code does not catch (which Flask turns into
  an HTTP 500) are the explicit result `ProxyResult.pyError`.
-/

set_option maxRecDepth 4000

namespace YuwathiProxy

/-- A parsed JSON value, as produced by Python `json.loads`: objects are
key-ordered association lists with string keys. -/
inductive Json where
  | null : Json
  | bool : Bool → Json
  | num : Rat → Json
  | str : String → Json
  | arr : List Json → Json
  | obj : List (String × Json) → Json

/-- Python truthiness (`bool(x)`) on JSON-decoded values: `None`, `False`,
`0`, `""`, `[]` and `\x7b\x7d` are falsy, everything else truthy. -/
def truthy : Json → Bool
  | .null => false
  | .bool b => b
  | .num q => q != 0
  | .str s => s != ""
  | .arr xs => !xs.isEmpty
  | .obj kvs => !kvs.isEmpty

/-- Association-list lookup on a parsed JSON object (Python `dict` access). -/
def pLookup (p : List (String × Json)) (k : String) : Option Json :=
  match p with
  | [] => none
  | (k', v) :: rest => if k' = k then some v else pLookup rest k

/-- Python `payload.get(k)`: `None` (here `Json.null`) when the key is absent. -/
def pyGet (p : List (String × Json)) (k : String) : Json :=
  (pLookup p k).getD .null

/-- Python `payload.get(k, d)`: the default is used only when the key is absent. -/
def pyGetD (p : List (String × Json)) (k : String) (d : Json) : Json :=
  (pLookup p k).getD d

/-- Python `a or b`: `a` when truthy, else `b`. -/
def pyOr (a b : Json) : Json :=
  if truthy a then a else b

/-- ASCII upper-casing, modelling Python `str.upper()`.  The relay only
compares the result against the all-ASCII method allow-set; theorems that
depend on upper-casing restrict to ASCII strings, where the two agree. -/
def pyStrUpper (s : String) : String :=
  ⟨s.data.map Char.toUpper⟩

/-- ASCII lower-casing, modelling Python `str.lower()` on the ASCII header
and scheme names the relay compares against. -/
def pyStrLower (s : String) : String :=
  ⟨s.data.map Char.toLower⟩

/-- Characters Python `urlsplit` accepts inside a URL scheme. -/
def schemeChar (c : Char) : Bool :=
  c.isAlpha || c.isDigit || c == '+' || c == '-' || c == '.'

/-- Split a character list at the first colon, returning the parts before
and after it (`url.find(":")` in `urlsplit`). -/
def splitAtColon : List Char → Option (List Char × List Char)
  | [] => none
  | c :: rest =>
    if c = ':' then some ([], rest)
    else
      match splitAtColon rest with
      | some (pre, post) => some (c :: pre, post)
      | none => none

/-- Membership of the WHATWG C0-control-or-space set stripped by `urlsplit`. -/
def wsOrC0 (c : Char) : Bool :=
  c.toNat ≤ 0x20

/-- Strip C0 controls and spaces from both ends (`url.strip(...)` in `urlsplit`). -/
def stripEnds (cs : List Char) : List Char :=
  ((cs.dropWhile wsOrC0).reverse.dropWhile wsOrC0).reverse

/-- The scheme and network-location components computed by
`urllib.parse.urlsplit`: tab/CR/LF removal and end stripping, scheme
recognition before the first colon, and netloc extraction after `//` up to
the first `/`, `?` or `#`.  `none` models the `ValueError` raised on
unbalanced IPv6 brackets (caught by `is_valid_target_url`). -/
def urlsplitSchemeNetloc (url : String) : Option (String × String) :=
  let cs := (stripEnds url.data).filter (fun c => !(c == '\t' || c == '\r' || c == '\n'))
  let sr : List Char × List Char :=
    match splitAtColon cs with
    | some (pre, post) =>
      if pre ≠ [] ∧ (pre.headD 'a').isAlpha ∧ pre.all schemeChar
      then (pre.map Char.toLower, post)
      else ([], cs)
    | none => ([], cs)
  match sr.2 with
  | '/' :: '/' :: after =>
    let netloc := after.takeWhile (fun c => !(c == '/' || c == '?' || c == '#'))
    if (netloc.contains '[' && !netloc.contains ']') ||
       (netloc.contains ']' && !netloc.contains '[') then none
    else some (⟨sr.1⟩, ⟨netloc⟩)
  | _ => some (⟨sr.1⟩, "")

/-- `is_valid_target_url` from `src/app.py`: the parsed scheme must be
exactly `http` or `https` and the network location non-empty; a parse
error yields `False`. -/
def is_valid_target_url (url : String) : Bool :=
  match urlsplitSchemeNetloc url with
  | none => false
  | some (scheme, netloc) => (scheme == "http" || scheme == "https") && netloc != ""

/-- Numeric value of a list of decimal digit characters. -/
def digitsVal (ds : List Char) : Nat :=
  ds.foldl (fun a c => a * 10 + (c.toNat - 48)) 0

/-- Python `float(str)` on finite decimal literals: optional surrounding
whitespace, optional sign, digits with optional fraction and exponent.
Named values (`inf`, `nan`) and digit-group underscores are not modelled;
no claim depends on them, and `inf`/`nan` have no `Rat` image. -/
def pyFloatOfString (s : String) : Option Rat :=
  let cs := stripEnds s.data
  let signRest : Rat × List Char :=
    match cs with
    | '+' :: rest => (1, rest)
    | '-' :: rest => (-1, rest)
    | _ => (1, cs)
  let intPart := signRest.2.takeWhile Char.isDigit
  let afterInt := signRest.2.dropWhile Char.isDigit
  let fracRest : List Char × List Char :=
    match afterInt with
    | '.' :: rest => (rest.takeWhile Char.isDigit, rest.dropWhile Char.isDigit)
    | _ => ([], afterInt)
  if intPart.isEmpty && fracRest.1.isEmpty then none
  else
    let mantissa : Rat :=
      signRest.1 * ((digitsVal intPart : Rat) +
        (digitsVal fracRest.1 : Rat) / ((10 : Rat) ^ fracRest.1.length))
    match fracRest.2 with
    | [] => some mantissa
    | e :: rest =>
      if e == 'e' || e == 'E' then
        let esignRest : Bool × List Char :=
          match rest with
          | '+' :: r => (true, r)
          | '-' :: r => (false, r)
          | _ => (true, rest)
        let eDigits := esignRest.2.takeWhile Char.isDigit
        let eRest := esignRest.2.dropWhile Char.isDigit
        if eDigits.isEmpty || !eRest.isEmpty then none
        else if esignRest.1 then some (mantissa * (10 : Rat) ^ digitsVal eDigits)
        else some (mantissa / (10 : Rat) ^ digitsVal eDigits)
      else none

/-- Python `float(x)` on a JSON-decoded value: numbers pass through,
booleans coerce to `1`/`0`, strings parse as float literals, and `None`,
lists and dicts raise `TypeError` (`none`). -/
def pyFloat : Json → Option Rat
  | .num q => some q
  | .bool b => some (if b then 1 else 0)
  | .str s => pyFloatOfString s
  | _ => none

/-- The method allow-set `ALLOWED_METHODS` of `src/app.py`, in source order. -/
def ALLOWED_METHODS : List String :=
  ["GET", "POST", "PUT", "PATCH", "DELETE", "HEAD", "OPTIONS"]

/-- Code-point-wise string comparison: Python `s <= t`. -/
def strLeChars : List Char → List Char → Bool
  | [], _ => true
  | _ :: _, [] => false
  | a :: as, b :: bs =>
    if a.toNat < b.toNat then true
    else if b.toNat < a.toNat then false
    else strLeChars as bs

/-- Python string comparison `s <= t` (lexicographic on code points). -/
def pyStrLe (s t : String) : Bool :=
  strLeChars s.data t.data

/-- Insert a string into a list sorted ascending. -/
def insertSorted (s : String) : List String → List String
  | [] => [s]
  | t :: ts => if pyStrLe s t then s :: t :: ts else t :: insertSorted s ts

/-- Ascending string sort, modelling Python `sorted` on a set of strings. -/
def pySortedStrings : List String → List String
  | [] => []
  | s :: ss => insertSorted s (pySortedStrings ss)

/-- A single-quote character, written by code point. -/
def sq : Char := Char.ofNat 39

/-- Python `repr` of a list of simple strings, as rendered into an f-string:
bracketed, comma-space separated, each element single-quoted. -/
def pyStrListRepr (xs : List String) : String :=
  "[" ++ String.intercalate ", "
    (xs.map (fun s => String.singleton sq ++ s ++ String.singleton sq)) ++ "]"

/-- The 405 message of `src/app.py` line 84:
`f"method not allowed. allowed: \x7bsorted(ALLOWED_METHODS)\x7d"`. -/
def methodNotAllowedMsg : String :=
  "method not allowed. allowed: " ++ pyStrListRepr (pySortedStrings ALLOWED_METHODS)

/-- `MAX_INCOMING_PAYLOAD_BYTES` (2 MiB) from `src/app.py`. -/
def MAX_INCOMING_PAYLOAD_BYTES : Nat := 2 * 1024 * 1024

/-- `MAX_RESPONSE_BYTES` (5 MiB) from `src/app.py`. -/
def MAX_RESPONSE_BYTES : Nat := 5 * 1024 * 1024

/-- The body the relay attaches to the outbound `requests.request` call:
no body, a raw string passed through the `data=` parameter, or a JSON
value passed through the `json=` parameter. -/
inductive OutBody where
  | noBody : OutBody
  | raw : String → OutBody
  | jsonVal : Json → OutBody

/-- The keyword arguments of the outbound `requests.request` call built by
`proxy` (lines 91 to 105 of `src/app.py`). -/
structure OutboundCall where
  method : String
  url : String
  headers : List (String × Json)
  timeout : Rat
  verify : Json
  allowRedirects : Bool
  body : OutBody

/-- Outcome of one call to the `proxy` view, up to the point where the
outbound HTTP request would be issued.  `pyError` is an exception the
handler does not catch (Flask then produces a 500); `malformedJson` is the
400 Flask raises from `request.get_json()` on an undecodable body;
`jsonError` is an explicit `jsonify(\x7b"error": msg\x7d), code` return. -/
inductive ProxyResult where
  | tooLarge : ProxyResult
  | malformedJson : ProxyResult
  | jsonError : Nat → String → ProxyResult
  | pyError : ProxyResult
  | forward : OutboundCall → ProxyResult

/-- An incoming HTTP request to `/yuwathi/proxy`: the declared
`Content-Length` (if any), whether the declared content type is JSON, and
the parsed JSON body (`none` when the body does not decode as JSON). -/
structure Request where
  contentLength : Option Nat
  isJson : Bool
  jsonBody : Option Json

/-- The content-length guard of lines 59 to 61: true exactly when a length
is declared and exceeds `MAX_INCOMING_PAYLOAD_BYTES`. -/
def clTooLarge : Option Nat → Bool
  | some n => decide (MAX_INCOMING_PAYLOAD_BYTES < n)
  | none => false

/-- Line 69: `payload.get("URL") or payload.get("url")`. -/
def extractedTarget (p : List (String × Json)) : Json :=
  pyOr (pyGet p "URL") (pyGet p "url")

/-- Line 70: `(payload.get("method") or "GET").upper()`; `none` models the
`AttributeError` raised when the selected value is truthy but not a string. -/
def extractedMethod (p : List (String × Json)) : Option String :=
  match pyOr (pyGet p "method") (.str "GET") with
  | .str s => some (pyStrUpper s)
  | _ => none

/-- Line 71: `payload.get("header") or payload.get("headers") or \x7b\x7d`. -/
def extractedHeaders (p : List (String × Json)) : Json :=
  pyOr (pyOr (pyGet p "header") (pyGet p "headers")) (.obj [])

/-- Line 72: `payload.get("data", None)`. -/
def extractedData (p : List (String × Json)) : Json :=
  pyGetD p "data" .null

/-- Line 75: `float(payload.get("timeout", 10))`; `none` models the
`TypeError`/`ValueError` raised when the value is not float-coercible. -/
def extractedTimeout (p : List (String × Json)) : Option Rat :=
  pyFloat (pyGetD p "timeout" (.num 10))

/-- Line 76: `payload.get("verify", True)`, passed through uncoerced. -/
def extractedVerify (p : List (String × Json)) : Json :=
  pyGetD p "verify" (.bool true)

/-- Line 77: `bool(payload.get("allow_redirects", True))`. -/
def extractedAllowRedirects (p : List (String × Json)) : Bool :=
  truthy (pyGetD p "allow_redirects" (.bool true))

/-- Line 80: `not target or not isinstance(target, str) or not
is_valid_target_url(target)`, negated: the target is truthy, a string, and
a valid URL. -/
def targetOk : Json → Bool
  | .str s => s != "" && is_valid_target_url s
  | _ => false

/-- The string payload of a `Json.str` (only used where `targetOk` holds). -/
def jsonAsStr : Json → String
  | .str s => s
  | _ => ""

/-- Lines 99 to 105: absent (`None`) data sends no body, a string is passed
through `data=` verbatim, any other JSON value through `json=`.  A raw
`bytes` body cannot occur in a JSON-decoded payload. -/
def dataToBody : Json → OutBody
  | .null => .noBody
  | .str s => .raw s
  | v => .jsonVal v

/-- Lines 63 to 109 of `src/app.py`: everything after the content-length
guard.  Extraction (lines 66 to 77) precedes validation (lines 80 to 88),
so a non-object payload, a truthy non-string method or a non-coercible
timeout raises before any validation error can be reported. -/
def proxyValidate (req : Request) : ProxyResult :=
  if !req.isJson then .jsonError 400 "expected application/json"
  else
    match req.jsonBody with
    | none => .malformedJson
    | some (.obj p) =>
      match extractedMethod p with
      | none => .pyError
      | some method =>
        match extractedTimeout p with
        | none => .pyError
        | some timeout =>
          if !targetOk (extractedTarget p) then
            .jsonError 400 "invalid or missing URL"
          else if !ALLOWED_METHODS.contains method then
            .jsonError 405 methodNotAllowedMsg
          else
            match extractedHeaders p with
            | .obj hs =>
              .forward
                { method := method
                  url := jsonAsStr (extractedTarget p)
                  headers := hs
                  timeout := timeout
                  verify := extractedVerify p
                  allowRedirects := extractedAllowRedirects p
                  body := dataToBody (extractedData p) }
            | _ => .jsonError 400 "header must be a JSON object/dict"
    | some _ => .pyError

/-- The `proxy` view of `src/app.py` (lines 57 to 109), up to the outbound
call: the content-length guard, then validation and request building. -/
def proxy (req : Request) : ProxyResult :=
  if clTooLarge req.contentLength then .tooLarge
  else proxyValidate req

/-- Lines 115 to 122: keep the whole response body when it is within
`MAX_RESPONSE_BYTES`, otherwise keep the first `MAX_RESPONSE_BYTES` bytes
and flag truncation. -/
def truncateBody (content : List Nat) : List Nat × Bool :=
  if MAX_RESPONSE_BYTES < content.length then (content.take MAX_RESPONSE_BYTES, true)
  else (content, false)

/-- The UTF-8 encoding of one unicode scalar value, by range. -/
def utf8EncodeChar (n : Nat) : List Nat :=
  if n < 0x80 then [n]
  else if n < 0x800 then [0xC0 + n / 0x40, 0x80 + n % 0x40]
  else if n < 0x10000 then
    [0xE0 + n / 0x1000, 0x80 + n / 0x40 % 0x40, 0x80 + n % 0x40]
  else
    [0xF0 + n / 0x40000, 0x80 + n / 0x1000 % 0x40, 0x80 + n / 0x40 % 0x40,
     0x80 + n % 0x40]

/-- The UTF-8 byte encoding of a string (Python `text.encode("utf-8")`). -/
def utf8Encode (s : String) : List Nat :=
  (s.data.map (fun c => utf8EncodeChar c.toNat)).flatten

/-- Strict UTF-8 decoding to unicode scalar values, rejecting truncated
sequences, stray continuation bytes, overlong forms (two-byte leads below
`0xC2`, `0xE0`/`0xF0` with a low second byte), surrogates (`0xED` with a
high second byte) and values above `0x10FFFF` (`0xF4` with a high second
byte) — exactly the byte sequences Python `bytes.decode("utf-8")` rejects
with `UnicodeDecodeError`. -/
def utf8DecodeAux : List Nat → Option (List Nat)
  | [] => some []
  | b :: bs =>
    if b < 0x80 then (utf8DecodeAux bs).map (b :: ·)
    else if b < 0xE0 then
      match bs with
      | b2 :: bs2 =>
        if 0xC2 ≤ b ∧ 0x80 ≤ b2 ∧ b2 < 0xC0 then
          (utf8DecodeAux bs2).map (((b - 0xC0) * 0x40 + (b2 - 0x80)) :: ·)
        else none
      | [] => none
    else if b < 0xF0 then
      match bs with
      | b2 :: b3 :: bs3 =>
        if (0x80 ≤ b2 ∧ b2 < 0xC0 ∧ 0x80 ≤ b3 ∧ b3 < 0xC0) ∧
           ¬(b = 0xE0 ∧ b2 < 0xA0) ∧ ¬(b = 0xED ∧ 0xA0 ≤ b2) then
          (utf8DecodeAux bs3).map
            (((b - 0xE0) * 0x1000 + (b2 - 0x80) * 0x40 + (b3 - 0x80)) :: ·)
        else none
      | _ => none
    else if b < 0xF5 then
      match bs with
      | b2 :: b3 :: b4 :: bs4 =>
        if (0x80 ≤ b2 ∧ b2 < 0xC0 ∧ 0x80 ≤ b3 ∧ b3 < 0xC0 ∧
            0x80 ≤ b4 ∧ b4 < 0xC0) ∧
           ¬(b = 0xF0 ∧ b2 < 0x90) ∧ ¬(b = 0xF4 ∧ 0x90 ≤ b2) then
          (utf8DecodeAux bs4).map
            (((b - 0xF0) * 0x40000 + (b2 - 0x80) * 0x1000 + (b3 - 0x80) * 0x40 +
              (b4 - 0x80)) :: ·)
        else none
      | _ => none
    else none
termination_by structural l => l

/-- `content.decode("utf-8")` from line 126: the decoded text, or `none`
for the `UnicodeDecodeError` caught at line 129. -/
def utf8Decode (bs : List Nat) : Option String :=
  (utf8DecodeAux bs).map (fun cps => ⟨cps.map Char.ofNat⟩)

/-- The base64 alphabet. -/
def base64Alphabet : List Char :=
  "ABCDEFGHIJKLMNOPQRSTUVWXYZabcdefghijklmnopqrstuvwxyz0123456789+/".data

/-- Character of the base64 alphabet at a six-bit index. -/
def b64c (n : Nat) : Char :=
  base64Alphabet.getD n (Char.ofNat 65)

/-- Standard padded base64 of a byte list, modelling
`base64.b64encode(content).decode("ascii")` from line 131. -/
def base64Encode : List Nat → String
  | [] => ""
  | [a] => ⟨[b64c (a / 4), b64c (a % 4 * 16), '=', '=']⟩
  | [a, b] => ⟨[b64c (a / 4), b64c (a % 4 * 16 + b / 16), b64c (b % 16 * 4), '=']⟩
  | a :: b :: c :: rest =>
    (⟨[b64c (a / 4), b64c (a % 4 * 16 + b / 16), b64c (b % 16 * 4 + c / 64),
       b64c (c % 64)]⟩ : String) ++ base64Encode rest

/-- Lines 124 to 131: decode the (possibly truncated) body as UTF-8 text
(`is_base64 = false`), falling back to base64 of the raw bytes
(`is_base64 = true`) when decoding fails.  Total: the fallback never
raises. -/
def normalizeBody (content : List Nat) : String × Bool :=
  match utf8Decode content with
  | some t => (t, false)
  | none => (base64Encode content, true)

/-- The `hop_by_hop` set of lines 134 to 137. -/
def hopByHopHeaders : List String :=
  ["connection", "keep-alive", "proxy-authenticate", "proxy-authorization",
   "te", "trailers", "transfer-encoding", "upgrade"]

/-- Line 138: drop response headers whose lower-cased name is hop-by-hop. -/
def stripHopByHop (hs : List (String × String)) : List (String × String) :=
  hs.filter (fun kv => !hopByHopHeaders.contains (pyStrLower kv.1))

/-- A lowercase hexadecimal digit. -/
def hexDigit (n : Nat) : Char :=
  if n < 10 then Char.ofNat (48 + n) else Char.ofNat (87 + n)

/-- Four lowercase hex digits, as in a JSON `\uXXXX` escape. -/
def hex4 (n : Nat) : List Char :=
  [hexDigit (n / 4096 % 16), hexDigit (n / 256 % 16), hexDigit (n / 16 % 16),
   hexDigit (n % 16)]

/-- The `json.dumps` (ensure_ascii) escape of one character: printable
ASCII passes through, short escapes for the usual controls, `\uXXXX`
otherwise, with surrogate pairs above the basic multilingual plane. -/
def jsonEscapeChar (c : Char) : List Char :=
  if c = Char.ofNat 34 then [Char.ofNat 92, Char.ofNat 34]
  else if c = Char.ofNat 92 then [Char.ofNat 92, Char.ofNat 92]
  else if c = '\n' then [Char.ofNat 92, 'n']
  else if c = '\r' then [Char.ofNat 92, 'r']
  else if c = '\t' then [Char.ofNat 92, 't']
  else if c.toNat = 8 then [Char.ofNat 92, 'b']
  else if c.toNat = 12 then [Char.ofNat 92, 'f']
  else if 0x20 ≤ c.toNat ∧ c.toNat < 0x7F then [c]
  else if c.toNat < 0x10000 then Char.ofNat 92 :: 'u' :: hex4 c.toNat
  else
    (Char.ofNat 92 :: 'u' :: hex4 (0xD800 + (c.toNat - 0x10000) / 1024)) ++
    (Char.ofNat 92 :: 'u' :: hex4 (0xDC00 + (c.toNat - 0x10000) % 1024))

/-- The `json.dumps` rendering of a JSON string literal. -/
def jsonEncodeStr (s : String) : String :=
  ⟨Char.ofNat 34 :: (s.data.map jsonEscapeChar).flatten ++ [Char.ofNat 34]⟩

/-- The `json.dumps` rendering of a JSON number.  Integers render exactly
as Python ints; for non-integral values Python renders the shortest float
`repr`, which has no exact `Rat` counterpart — the rational rendering
stands in for it, and no claim depends on non-integral numbers. -/
def jsonEncodeNum (q : Rat) : String :=
  if q.den = 1 then toString q.num else toString q

/-- `json.dumps` with its default separators, as `requests` applies to the
value of the `json=` parameter: `", "` between items, `": "` after keys,
`ensure_ascii` string escaping. -/
def jsonEncode : Json → String
  | .null => "null"
  | .bool true => "true"
  | .bool false => "false"
  | .num q => jsonEncodeNum q
  | .str s => jsonEncodeStr s
  | .arr xs =>
    "[" ++ String.intercalate ", " (xs.attach.map (fun x => jsonEncode x.1)) ++ "]"
  | .obj kvs =>
    "\x7b" ++ String.intercalate ", "
      (kvs.attach.map (fun kv => jsonEncodeStr kv.1.1 ++ ": " ++ jsonEncode kv.1.2)) ++
    "\x7d"
decreasing_by
  · have h := List.sizeOf_lt_of_mem x.2
    simp only [Json.arr.sizeOf_spec]
    omega
  · have h := List.sizeOf_lt_of_mem kv.2
    have h2 : sizeOf kv.1.2 < sizeOf kv.1 := by
      cases kv.1 with
      | mk a b => simp
    simp only [Json.obj.sizeOf_spec]
    omega

/-- Modelled from the spec: the outbound byte body that the external HTTP
client (`requests`, §4.2, not part of `src/`) sends for the keyword
arguments built at lines 98 to 105 — nothing for an absent body, a raw
string verbatim for `data=`, and the JSON serialization for `json=`. -/
def wireBody : OutBody → Option String
  | .noBody => none
  | .raw s => some s
  | .jsonVal v => some (jsonEncode v)

/-- Whether a header mapping already names a content type (the client
checks case-insensitively). -/
def hasContentType (hs : List (String × Json)) : Bool :=
  hs.any (fun kv => pyStrLower kv.1 == "content-type")

/-- Modelled from the spec: the headers the external HTTP client sends —
unchanged, except that a `json=` body adds `Content-Type:
application/json` when the caller supplied no content-type header
(caller headers take precedence, §4.1 rule 10). -/
def wireHeaders (hs : List (String × Json)) : OutBody → List (String × Json)
  | .jsonVal _ =>
    if hasContentType hs then hs
    else hs ++ [("Content-Type", .str "application/json")]
  | _ => hs

/-- Whether a JSON value is an object (`isinstance(x, dict)`). -/
def Json.isObj : Json → Bool
  | .obj _ => true
  | _ => false

/-- The structured JSON values of claim C6: objects, arrays, numbers and
booleans (not `null`, not strings). -/
def isStructured : Json → Bool
  | .obj _ => true
  | .arr _ => true
  | .num _ => true
  | .bool _ => true
  | _ => false

/-- The outbound call produced by the concrete C6 witness payload. -/
def jsonDataCall : OutboundCall :=
  { method := "GET", url := "https://example.com", headers := [], timeout := 10,
    verify := .bool true, allowRedirects := true,
    body := .jsonVal (.obj [("foo", Json.str "bar")]) }

/-- C9: removing hop-by-hop headers (the fixed set, matched
case-insensitively on the header name) is idempotent — filtering an
already-filtered header mapping changes nothing. -/
theorem hop_by_hop_strip_idempotent (hs : List (String × String)) :
    stripHopByHop (stripHopByHop hs) = stripHopByHop hs := by
  simp [stripHopByHop, List.filter_filter]

/-- C7: a response body within `MAX_RESPONSE_BYTES` (5 MiB) is kept whole
with `truncated = false`; a longer one is cut to exactly the first
`MAX_RESPONSE_BYTES` bytes with `truncated = true`. -/
theorem response_truncation (content : List Nat) :
    (content.length ≤ MAX_RESPONSE_BYTES → truncateBody content = (content, false)) ∧
    (MAX_RESPONSE_BYTES < content.length →
      truncateBody content = (content.take MAX_RESPONSE_BYTES, true) ∧
      (truncateBody content).1.length = MAX_RESPONSE_BYTES) := by
  constructor
  · intro h
    simp [truncateBody, Nat.not_lt.2 h]
  · intro h
    refine ⟨by simp [truncateBody, h], ?_⟩
    simp [truncateBody, h, List.length_take]
    omega

/-- Witness for C7 at a concrete body one byte over the cap. -/
theorem response_truncation_witness :
    MAX_RESPONSE_BYTES < (List.replicate (MAX_RESPONSE_BYTES + 1) (0 : Nat)).length ∧
    truncateBody (List.replicate (MAX_RESPONSE_BYTES + 1) (0 : Nat)) =
      ((List.replicate (MAX_RESPONSE_BYTES + 1) (0 : Nat)).take MAX_RESPONSE_BYTES, true) ∧
    (truncateBody (List.replicate (MAX_RESPONSE_BYTES + 1) (0 : Nat))).1.length =
      MAX_RESPONSE_BYTES := by
  have h : MAX_RESPONSE_BYTES < (List.replicate (MAX_RESPONSE_BYTES + 1) (0 : Nat)).length := by
    simp
  exact ⟨h, (response_truncation _).2 h⟩

/-- The validation stage after the content-length guard never produces the
413 result. -/
theorem proxyValidate_ne_tooLarge (req : Request) : proxyValidate req ≠ .tooLarge := by
  intro h
  unfold proxyValidate at h
  repeat first
    | exact ProxyResult.noConfusion h
    | split at h

/-- The guard fires exactly on a declared length above the cap. -/
theorem clTooLarge_iff (cl : Option Nat) :
    clTooLarge cl = true ↔ ∃ n, cl = some n ∧ MAX_INCOMING_PAYLOAD_BYTES < n := by
  cases cl <;> simp [clTooLarge]

/-- C10: the relay answers 413 exactly when a `Content-Length` is declared
and exceeds `MAX_INCOMING_PAYLOAD_BYTES`; with no declared length the size
guard is skipped entirely and 413 is impossible. -/
theorem content_length_guard (req : Request) :
    (proxy req = .tooLarge ↔
      ∃ n, req.contentLength = some n ∧ MAX_INCOMING_PAYLOAD_BYTES < n) ∧
    (req.contentLength = none → proxy req ≠ .tooLarge) := by
  have hval := proxyValidate_ne_tooLarge req
  have hmain : proxy req = .tooLarge ↔ clTooLarge req.contentLength = true := by
    constructor
    · intro h
      unfold proxy at h
      split at h
      · assumption
      · exact absurd h hval
    · intro h
      unfold proxy
      simp [h]
  refine ⟨hmain.trans (clTooLarge_iff _), fun hn h => ?_⟩
  have := hmain.1 h
  rw [hn] at this
  exact absurd this (by simp [clTooLarge])

/-- Witness for C10: a request with no declared length is never 413. -/
theorem content_length_guard_witness :
    proxy ⟨none, true, some (.obj [("URL", .str "https://example.com")])⟩ ≠
      .tooLarge :=
  (content_length_guard _).2 rfl

/-- Reduction of `proxy` once the guard, content type, payload shape and
the two fallible extractions are fixed: only the three validations and the
final request construction remain. -/
theorem proxy_after_extraction (req : Request) (p : List (String × Json))
    (m : String) (t : Rat)
    (hcl : clTooLarge req.contentLength = false) (hj : req.isJson = true)
    (hb : req.jsonBody = some (.obj p)) (hm : extractedMethod p = some m)
    (ht : extractedTimeout p = some t) :
    proxy req =
      if !targetOk (extractedTarget p) then .jsonError 400 "invalid or missing URL"
      else if !ALLOWED_METHODS.contains m then .jsonError 405 methodNotAllowedMsg
      else
        match extractedHeaders p with
        | .obj hs =>
          .forward
            { method := m, url := jsonAsStr (extractedTarget p), headers := hs,
              timeout := t, verify := extractedVerify p,
              allowRedirects := extractedAllowRedirects p,
              body := dataToBody (extractedData p) }
        | _ => .jsonError 400 "header must be a JSON object/dict" := by
  unfold proxy proxyValidate
  rw [hcl, hj, hb]
  simp [hm, ht]

/-- Inversion: a forwarded call pins down every stage of the pipeline —
the guard passed, the payload was a JSON object, both extractions
succeeded, all three validations passed, and the call is exactly the
record built at lines 91 to 105. -/
theorem proxy_forward_inv (req : Request) (c : OutboundCall)
    (h : proxy req = .forward c) :
    clTooLarge req.contentLength = false ∧ req.isJson = true ∧
    ∃ p m t hs,
      req.jsonBody = some (.obj p) ∧
      extractedMethod p = some m ∧
      extractedTimeout p = some t ∧
      targetOk (extractedTarget p) = true ∧
      ALLOWED_METHODS.contains m = true ∧
      extractedHeaders p = .obj hs ∧
      c = { method := m, url := jsonAsStr (extractedTarget p), headers := hs,
            timeout := t, verify := extractedVerify p,
            allowRedirects := extractedAllowRedirects p,
            body := dataToBody (extractedData p) } := by
  unfold proxy proxyValidate at h
  iterate 9 (all_goals first | exact ProxyResult.noConfusion h | split at h | skip)
  injection h with h
  rename_i hcl hj x1 p hb x2 m hm x3 t ht htgt hcont x4 hs hh
  exact ⟨by simpa using hcl, by simpa using hj, p, m, t, hs, hb, hm, ht,
    by simpa using htgt, by simpa using hcont, hh, h.symm⟩

/-- C2 counterexample: a payload with `timeout = -5` is forwarded with
timeout `-5`, so a non-positive timeout is passed to the outbound call and
no positivity coercion takes place. -/
theorem timeout_nonpositive_cex :
    proxy ⟨none, true, some (.obj [("URL", .str "https://example.com"),
        ("timeout", .num (-5))])⟩ =
      .forward { method := "GET", url := "https://example.com", headers := [],
                 timeout := -5, verify := .bool true, allowRedirects := true,
                 body := .noBody } ∧
    ((-5 : Rat) ≤ 0) :=
  ⟨rfl, by norm_num⟩

/-- C2 (amended): the outbound timeout is `float(payload.get("timeout",
10))` — extracted from key `timeout`, coerced by Python `float` (an
uncoercible value raises instead), defaulting to `10` exactly when the key
is absent; the value is passed through with no positivity check. -/
theorem timeout_extraction (req : Request) (p : List (String × Json)) (c : OutboundCall)
    (hb : req.jsonBody = some (.obj p)) (h : proxy req = .forward c) :
    extractedTimeout p = some c.timeout ∧
    (pLookup p "timeout" = none → c.timeout = 10) := by
  obtain ⟨-, -, p', m, t, hs, hb', hm, ht, -, -, hh, hc⟩ := proxy_forward_inv req c h
  rw [hb] at hb'
  injection hb' with e
  injection e with e
  subst e
  constructor
  · rw [hc]
    exact ht
  · intro hnone
    have h10 : extractedTimeout p = some 10 := by
      simp [extractedTimeout, pyGetD, hnone, pyFloat]
    rw [ht] at h10
    injection h10 with h10
    rw [hc]
    exact h10

/-- Witness for C2: with no `timeout` key the forwarded timeout is 10. -/
theorem timeout_extraction_witness :
    extractedTimeout [("URL", Json.str "https://example.com")] = some (10 : Rat) ∧
    (pLookup [("URL", Json.str "https://example.com")] "timeout" = none →
      (10 : Rat) = 10) :=
  timeout_extraction ⟨none, true, some (.obj [("URL", Json.str "https://example.com")])⟩
    [("URL", Json.str "https://example.com")]
    { method := "GET", url := "https://example.com", headers := [], timeout := 10,
      verify := .bool true, allowRedirects := true, body := .noBody }
    rfl rfl

/-- C5 counterexample: with `header = \x7b\x7d` (present, an object, but
falsy) and `headers = "nope"`, the `or`-chain skips `header` and selects
`headers`, so the relay rejects with the header error — although the claim
says `header` wins whenever both keys are present, which would make the
selected value an object and the request forwardable. -/
theorem header_falsy_skipped_cex :
    proxy ⟨none, true, some (.obj [("URL", Json.str "https://example.com"),
        ("header", Json.obj []), ("headers", Json.str "nope")])⟩ =
      .jsonError 400 "header must be a JSON object/dict" ∧
    pLookup [("URL", Json.str "https://example.com"), ("header", Json.obj []),
        ("headers", Json.str "nope")] "header" = some (Json.obj []) :=
  ⟨rfl, rfl⟩

/-- C5 (amended): outbound headers are the first truthy of keys `header`,
`headers` (falsy values — including an explicitly supplied empty object —
are skipped), defaulting to the empty mapping; once the earlier stages
pass, the relay rejects with 400 `header must be a JSON object/dict`
exactly when the selected value is not a JSON object, and otherwise
forwards its entries unchanged. -/
theorem header_extraction (req : Request) (p : List (String × Json)) (m : String) (t : Rat)
    (hcl : clTooLarge req.contentLength = false) (hj : req.isJson = true)
    (hb : req.jsonBody = some (.obj p)) (hm : extractedMethod p = some m)
    (ht : extractedTimeout p = some t)
    (htgt : targetOk (extractedTarget p) = true)
    (hcont : ALLOWED_METHODS.contains m = true) :
    (proxy req = .jsonError 400 "header must be a JSON object/dict" ↔
      (extractedHeaders p).isObj = false) ∧
    (∀ hs c, extractedHeaders p = .obj hs → proxy req = .forward c → c.headers = hs) ∧
    (pLookup p "header" = none → pLookup p "headers" = none →
      extractedHeaders p = .obj []) ∧
    (truthy (pyGet p "header") = true → extractedHeaders p = pyGet p "header") ∧
    (truthy (pyGet p "header") = false → truthy (pyGet p "headers") = true →
      extractedHeaders p = pyGet p "headers") := by
  have hred := proxy_after_extraction req p m t hcl hj hb hm ht
  rw [htgt, hcont] at hred
  simp only [Bool.not_true, Bool.false_eq_true, if_false, ite_false] at hred
  refine ⟨?_, ?_, ?_, ?_, ?_⟩
  · cases hh : extractedHeaders p <;> rw [hh] at hred <;>
      simp [hred, Json.isObj]
  · intro hs c hh hf
    rw [hh] at hred
    have e := (hf.symm.trans hred)
    injection e with e
    simp [e]
  · intro h1 h2
    simp [extractedHeaders, pyGet, pyOr, h1, h2, truthy]
  · intro htr
    simp [extractedHeaders, pyOr, htr]
  · intro htr1 htr2
    simp [extractedHeaders, pyOr, htr1, htr2]

/-- Witness for C5: a truthy non-object `header` value is rejected with
the header error. -/
theorem header_extraction_witness :
    proxy ⟨none, true, some (.obj [("URL", Json.str "https://example.com"),
        ("header", Json.str "nope")])⟩ =
      .jsonError 400 "header must be a JSON object/dict" :=
  (header_extraction ⟨none, true, some (.obj [("URL", Json.str "https://example.com"),
      ("header", Json.str "nope")])⟩
    [("URL", Json.str "https://example.com"), ("header", Json.str "nope")]
    "GET" 10 rfl rfl rfl rfl rfl rfl rfl).1.mpr rfl

/-- C6: for every forwarded request, an absent `data` key sends no body;
string data is passed through verbatim with the headers untouched; any
structured JSON value (object, array, number, boolean) is sent as its JSON
serialization, with `Content-Type: application/json` added only when the
caller supplied no content-type header. -/
theorem body_forwarding (req : Request) (p : List (String × Json)) (c : OutboundCall)
    (hb : req.jsonBody = some (.obj p)) (h : proxy req = .forward c) :
    (pLookup p "data" = none →
      c.body = .noBody ∧ wireBody c.body = none ∧
      wireHeaders c.headers c.body = c.headers) ∧
    (∀ s, pLookup p "data" = some (.str s) →
      c.body = .raw s ∧ wireBody c.body = some s ∧
      wireHeaders c.headers c.body = c.headers) ∧
    (∀ v, pLookup p "data" = some v → isStructured v = true →
      c.body = .jsonVal v ∧ wireBody c.body = some (jsonEncode v) ∧
      wireHeaders c.headers c.body =
        (if hasContentType c.headers then c.headers
         else c.headers ++ [("Content-Type", Json.str "application/json")])) := by
  obtain ⟨-, -, p', m, t, hs, hb', hm, ht, -, -, hh, hc⟩ := proxy_forward_inv req c h
  rw [hb] at hb'
  injection hb' with e
  injection e with e
  subst e
  subst hc
  refine ⟨?_, ?_, ?_⟩
  · intro hnone
    simp [extractedData, pyGetD, hnone, dataToBody, wireBody, wireHeaders]
  · intro s hsome
    simp [extractedData, pyGetD, hsome, dataToBody, wireBody, wireHeaders]
  · intro v hsome hstr
    cases v <;>
      simp_all [extractedData, pyGetD, dataToBody, wireBody, wireHeaders, isStructured]

/-- Witness for C6 at a concrete structured body. -/
theorem body_forwarding_witness :
    jsonDataCall.body = .jsonVal (.obj [("foo", Json.str "bar")]) ∧
    wireBody jsonDataCall.body = some (jsonEncode (.obj [("foo", Json.str "bar")])) ∧
    wireHeaders jsonDataCall.headers jsonDataCall.body =
      (if hasContentType jsonDataCall.headers then jsonDataCall.headers
       else jsonDataCall.headers ++ [("Content-Type", Json.str "application/json")]) :=
  (body_forwarding
    ⟨none, true, some (.obj [("URL", Json.str "https://example.com"),
        ("data", Json.obj [("foo", Json.str "bar")])])⟩
    [("URL", Json.str "https://example.com"), ("data", Json.obj [("foo", Json.str "bar")])]
    jsonDataCall rfl rfl).2.2 (.obj [("foo", Json.str "bar")]) rfl rfl

/-- C4 counterexample: `method = ""` is present but falsy, so the
`or`-default replaces it with `GET` and the request is forwarded — the
claim instead predicts upper-casing `""` and a 405 rejection, since `""`
is not in the allow-set. -/
theorem method_empty_string_cex :
    proxy ⟨none, true, some (.obj [("URL", Json.str "https://example.com"),
        ("method", Json.str "")])⟩ =
      .forward { method := "GET", url := "https://example.com", headers := [],
                 timeout := 10, verify := .bool true, allowRedirects := true,
                 body := .noBody } ∧
    pyStrUpper "" = "" ∧
    ALLOWED_METHODS.contains "" = false :=
  ⟨rfl, rfl, rfl⟩

/-- C4 (amended): the effective method is the upper-cased `method` string
when that value is truthy, and `GET` when the key is absent or its value
falsy (such as the empty string); a truthy non-string value raises
instead.  Once the earlier stages pass, the relay rejects with 405 exactly
when the effective method is outside the allow-set, and the 405 message
lists exactly the allow-set, sorted ascending. -/
theorem method_validation (req : Request) (p : List (String × Json)) (m : String)
    (hcl : clTooLarge req.contentLength = false) (hj : req.isJson = true)
    (hb : req.jsonBody = some (.obj p)) (hm : extractedMethod p = some m)
    (hts : (extractedTimeout p).isSome = true)
    (htgt : targetOk (extractedTarget p) = true) :
    (proxy req = .jsonError 405 methodNotAllowedMsg ↔
      ALLOWED_METHODS.contains m = false) ∧
    methodNotAllowedMsg =
      "method not allowed. allowed: " ++ pyStrListRepr (pySortedStrings ALLOWED_METHODS) ∧
    pySortedStrings ALLOWED_METHODS =
      ["DELETE", "GET", "HEAD", "OPTIONS", "PATCH", "POST", "PUT"] ∧
    (pySortedStrings ALLOWED_METHODS).Pairwise (fun a b => pyStrLe a b = true) ∧
    (pySortedStrings ALLOWED_METHODS).Perm ALLOWED_METHODS ∧
    (pyGet p "method" = .null → m = "GET") ∧
    (pyGet p "method" = .str "" → m = "GET") ∧
    (∀ s, pyGet p "method" = .str s → s ≠ "" → m = pyStrUpper s) := by
  obtain ⟨t, ht⟩ := Option.isSome_iff_exists.mp hts
  have hred := proxy_after_extraction req p m t hcl hj hb hm ht
  rw [htgt] at hred
  simp only [Bool.not_true, Bool.false_eq_true, if_false, ite_false] at hred
  refine ⟨?_, rfl, by decide, by decide, by decide, ?_, ?_, ?_⟩
  · cases hcm : ALLOWED_METHODS.contains m with
    | false =>
      rw [hcm] at hred
      simp only [Bool.not_false, if_true, ite_true] at hred
      simp [hred]
    | true =>
      rw [hcm] at hred
      simp only [Bool.not_true, Bool.false_eq_true, if_false, ite_false] at hred
      constructor
      · intro hef
        have e := hef.symm.trans hred
        split at e
        · exact ProxyResult.noConfusion e
        · injection e with e1 e2
          exact absurd e1 (by decide)
      · intro hff
        exact absurd hff (by simp)
  · intro hnull
    have e1 : pyOr (pyGet p "method") (Json.str "GET") = .str "GET" := by
      rw [hnull]; rfl
    have e2 : extractedMethod p = some "GET" := by
      unfold extractedMethod
      rw [e1]
      rfl
    rw [hm] at e2
    injection e2
  · intro hempty
    have e1 : pyOr (pyGet p "method") (Json.str "GET") = .str "GET" := by
      rw [hempty]; rfl
    have e2 : extractedMethod p = some "GET" := by
      unfold extractedMethod
      rw [e1]
      rfl
    rw [hm] at e2
    injection e2
  · intro s hstr hne
    have e1 : pyOr (pyGet p "method") (Json.str "GET") = .str s := by
      simp [pyOr, hstr, truthy, hne]
    have e2 : extractedMethod p = some (pyStrUpper s) := by
      unfold extractedMethod
      rw [e1]
    rw [hm] at e2
    injection e2

/-- Witness for C4: `method = "TRACE"` draws the 405 with the sorted
allow-set message. -/
theorem method_validation_witness :
    proxy ⟨none, true, some (.obj [("URL", Json.str "https://example.com"),
        ("method", Json.str "TRACE")])⟩ = .jsonError 405 methodNotAllowedMsg :=
  (method_validation ⟨none, true, some (.obj [("URL", Json.str "https://example.com"),
      ("method", Json.str "TRACE")])⟩
    [("URL", Json.str "https://example.com"), ("method", Json.str "TRACE")]
    "TRACE" rfl rfl rfl rfl rfl rfl).1.mpr rfl

/-- C3 counterexample: with an invalid URL *and* a truthy non-string
`method`, the relay raises at method extraction (an unhandled 500) before
the URL check runs, so no 400 `invalid or missing URL` is produced even
though the target value fails URL validation. -/
theorem url_error_preempted_cex :
    proxy ⟨none, true, some (.obj [("URL", Json.str "not-a-url"),
        ("method", Json.num 5)])⟩ = .pyError ∧
    proxy ⟨none, true, some (.obj [("URL", Json.str "not-a-url"),
        ("method", Json.num 5)])⟩ ≠ .jsonError 400 "invalid or missing URL" ∧
    targetOk (extractedTarget [("URL", Json.str "not-a-url"),
        ("method", Json.num 5)]) = false :=
  ⟨rfl, fun h => ProxyResult.noConfusion h, rfl⟩

/-- C3 (amended): the target is the first truthy of keys `URL`, `url`;
once the guard, content type, payload shape and both extractions succeed,
the relay answers 400 `invalid or missing URL` exactly when that value is
falsy, not a string, or fails URL validation (scheme exactly `http` or
`https` with a non-empty network location). -/
theorem url_validation (req : Request) (p : List (String × Json))
    (hcl : clTooLarge req.contentLength = false) (hj : req.isJson = true)
    (hb : req.jsonBody = some (.obj p))
    (hms : (extractedMethod p).isSome = true)
    (hts : (extractedTimeout p).isSome = true) :
    (proxy req = .jsonError 400 "invalid or missing URL" ↔
      targetOk (extractedTarget p) = false) ∧
    (targetOk (extractedTarget p) = true ↔
      ∃ s, extractedTarget p = .str s ∧ s ≠ "" ∧ is_valid_target_url s = true) ∧
    (truthy (pyGet p "URL") = true → extractedTarget p = pyGet p "URL") ∧
    (truthy (pyGet p "URL") = false → extractedTarget p = pyGet p "url") := by
  obtain ⟨m, hm⟩ := Option.isSome_iff_exists.mp hms
  obtain ⟨t, ht⟩ := Option.isSome_iff_exists.mp hts
  have hred := proxy_after_extraction req p m t hcl hj hb hm ht
  refine ⟨?_, ?_, ?_, ?_⟩
  · cases htgt : targetOk (extractedTarget p) with
    | false =>
      rw [htgt] at hred
      simp only [Bool.not_false, if_true, ite_true] at hred
      simp [hred]
    | true =>
      rw [htgt] at hred
      simp only [Bool.not_true, Bool.false_eq_true, if_false, ite_false] at hred
      constructor
      · intro hef
        have e := hef.symm.trans hred
        split at e
        · injection e with e1 e2
          exact absurd e1 (by decide)
        · split at e
          · exact ProxyResult.noConfusion e
          · injection e with e1 e2
            exact absurd e2 (by decide)
      · intro hff
        exact absurd hff (by simp)
  · cases hT : extractedTarget p <;> simp [targetOk]
  · intro htr
    simp [extractedTarget, pyOr, htr]
  · intro htr
    simp [extractedTarget, pyOr, htr]

/-- Witness for C3: input `\x7b"URL": "not-a-url"\x7d` draws the 400. -/
theorem url_validation_witness :
    proxy ⟨none, true, some (.obj [("URL", Json.str "not-a-url")])⟩ =
      .jsonError 400 "invalid or missing URL" :=
  (url_validation ⟨none, true, some (.obj [("URL", Json.str "not-a-url")])⟩
    [("URL", Json.str "not-a-url")] rfl rfl rfl rfl rfl).1.mpr rfl

/-- C1 counterexample: the first failing §4.1 rule for this payload is the
URL rule, whose error is 400 `invalid or missing URL` — but the dict
`timeout` value makes `float()` raise during extraction, before any
validation, so the relay answers with an unhandled-exception 500 instead
of the first failing rule error. -/
theorem validation_order_cex :
    proxy ⟨none, true, some (.obj [("URL", Json.str "not-a-url"),
        ("timeout", Json.obj [])])⟩ = .pyError ∧
    proxy ⟨none, true, some (.obj [("URL", Json.str "not-a-url"),
        ("timeout", Json.obj [])])⟩ ≠ .jsonError 400 "invalid or missing URL" ∧
    targetOk (extractedTarget [("URL", Json.str "not-a-url"),
        ("timeout", Json.obj [])]) = false :=
  ⟨rfl, fun h => ProxyResult.noConfusion h, rfl⟩

/-- C1 (amended): provided extraction does not raise (the payload is a
JSON object, any truthy `method` value is a string, any `timeout` value is
float-coercible), the relay answers with the error of the first failing
rule, checked in the order payload size, JSON well-formedness, URL,
method, headers; and a request is forwarded only when every stage
passed — so no outbound call is attempted for any invalid request. -/
theorem validation_order (req : Request) :
    (∀ n, req.contentLength = some n → MAX_INCOMING_PAYLOAD_BYTES < n →
      proxy req = .tooLarge) ∧
    (clTooLarge req.contentLength = false → req.isJson = false →
      proxy req = .jsonError 400 "expected application/json") ∧
    (clTooLarge req.contentLength = false → req.isJson = true →
      req.jsonBody = none → proxy req = .malformedJson) ∧
    (∀ p m t, clTooLarge req.contentLength = false → req.isJson = true →
      req.jsonBody = some (.obj p) → extractedMethod p = some m →
      extractedTimeout p = some t → targetOk (extractedTarget p) = false →
      proxy req = .jsonError 400 "invalid or missing URL") ∧
    (∀ p m t, clTooLarge req.contentLength = false → req.isJson = true →
      req.jsonBody = some (.obj p) → extractedMethod p = some m →
      extractedTimeout p = some t → targetOk (extractedTarget p) = true →
      ALLOWED_METHODS.contains m = false →
      proxy req = .jsonError 405 methodNotAllowedMsg) ∧
    (∀ p m t, clTooLarge req.contentLength = false → req.isJson = true →
      req.jsonBody = some (.obj p) → extractedMethod p = some m →
      extractedTimeout p = some t → targetOk (extractedTarget p) = true →
      ALLOWED_METHODS.contains m = true → (extractedHeaders p).isObj = false →
      proxy req = .jsonError 400 "header must be a JSON object/dict") ∧
    (∀ c, proxy req = .forward c →
      clTooLarge req.contentLength = false ∧ req.isJson = true ∧
      ∃ p m, req.jsonBody = some (.obj p) ∧ extractedMethod p = some m ∧
        (extractedTimeout p).isSome = true ∧
        targetOk (extractedTarget p) = true ∧
        ALLOWED_METHODS.contains m = true ∧
        (extractedHeaders p).isObj = true) := by
  refine ⟨?_, ?_, ?_, ?_, ?_, ?_, ?_⟩
  · intro n hn hlt
    unfold proxy
    have hc : clTooLarge req.contentLength = true := by
      rw [hn]
      simp [clTooLarge, hlt]
    simp [hc]
  · intro hcl hj
    unfold proxy proxyValidate
    rw [hcl, hj]
    rfl
  · intro hcl hj hbn
    unfold proxy proxyValidate
    rw [hcl, hj, hbn]
    rfl
  · intro p m t hcl hj hb hm ht htgt
    have hred := proxy_after_extraction req p m t hcl hj hb hm ht
    rw [htgt] at hred
    simpa using hred
  · intro p m t hcl hj hb hm ht htgt hcont
    have hred := proxy_after_extraction req p m t hcl hj hb hm ht
    rw [htgt, hcont] at hred
    simpa using hred
  · intro p m t hcl hj hb hm ht htgt hcont hh
    have hred := proxy_after_extraction req p m t hcl hj hb hm ht
    rw [htgt, hcont] at hred
    simp only [Bool.not_true, Bool.false_eq_true, if_false, ite_false] at hred
    cases hH : extractedHeaders p with
    | obj hs =>
      rw [hH] at hh
      simp [Json.isObj] at hh
    | null => rw [hH] at hred; exact hred
    | bool b => rw [hH] at hred; exact hred
    | num q => rw [hH] at hred; exact hred
    | str s => rw [hH] at hred; exact hred
    | arr xs => rw [hH] at hred; exact hred
  · intro c h
    obtain ⟨hcl, hj, p, m, t, hs, hb, hm, ht, htgt, hcont, hh, hc⟩ :=
      proxy_forward_inv req c h
    exact ⟨hcl, hj, p, m, hb, hm, by simp [ht], htgt, hcont, by simp [hh, Json.isObj]⟩

/-- Witness for C1: a declared length one byte over the cap draws the 413
regardless of the rest of the request. -/
theorem validation_order_witness :
    proxy ⟨some (2 * 1024 * 1024 + 1), true, none⟩ = .tooLarge :=
  (validation_order ⟨some (2 * 1024 * 1024 + 1), true, none⟩).1
    (2 * 1024 * 1024 + 1) rfl (by decide)

/-- One-step unfolding of `utf8DecodeAux` on a cons cell. -/
theorem utf8DecodeAux_cons (b : Nat) (bs : List Nat) :
    utf8DecodeAux (b :: bs) =
      if b < 0x80 then (utf8DecodeAux bs).map (b :: ·)
      else if b < 0xE0 then
        match bs with
        | b2 :: bs2 =>
          if 0xC2 ≤ b ∧ 0x80 ≤ b2 ∧ b2 < 0xC0 then
            (utf8DecodeAux bs2).map (((b - 0xC0) * 0x40 + (b2 - 0x80)) :: ·)
          else none
        | [] => none
      else if b < 0xF0 then
        match bs with
        | b2 :: b3 :: bs3 =>
          if (0x80 ≤ b2 ∧ b2 < 0xC0 ∧ 0x80 ≤ b3 ∧ b3 < 0xC0) ∧
             ¬(b = 0xE0 ∧ b2 < 0xA0) ∧ ¬(b = 0xED ∧ 0xA0 ≤ b2) then
            (utf8DecodeAux bs3).map
              (((b - 0xE0) * 0x1000 + (b2 - 0x80) * 0x40 + (b3 - 0x80)) :: ·)
          else none
        | _ => none
      else if b < 0xF5 then
        match bs with
        | b2 :: b3 :: b4 :: bs4 =>
          if (0x80 ≤ b2 ∧ b2 < 0xC0 ∧ 0x80 ≤ b3 ∧ b3 < 0xC0 ∧
              0x80 ≤ b4 ∧ b4 < 0xC0) ∧
             ¬(b = 0xF0 ∧ b2 < 0x90) ∧ ¬(b = 0xF4 ∧ 0x90 ≤ b2) then
            (utf8DecodeAux bs4).map
              (((b - 0xF0) * 0x40000 + (b2 - 0x80) * 0x1000 + (b3 - 0x80) * 0x40 +
                (b4 - 0x80)) :: ·)
          else none
        | _ => none
      else none := by
  cases bs with
  | nil => rfl
  | cons b2 bs2 =>
    cases bs2 with
    | nil => rfl
    | cons b3 bs3 =>
      cases bs3 with
      | nil => rfl
      | cons b4 bs4 => rfl

/-- Decoder shape lemma for an ASCII byte. -/
theorem utf8DecodeAux_one (b : Nat) (bs : List Nat) (h : b < 0x80) :
    utf8DecodeAux (b :: bs) = (utf8DecodeAux bs).map (b :: ·) := by
  rw [utf8DecodeAux_cons, if_pos h]

/-- Decoder shape lemma for a two-byte lead. -/
theorem utf8DecodeAux_two (b b2 : Nat) (bs : List Nat)
    (h1 : ¬(b < 0x80)) (h2 : b < 0xE0) :
    utf8DecodeAux (b :: b2 :: bs) =
      if 0xC2 ≤ b ∧ 0x80 ≤ b2 ∧ b2 < 0xC0 then
        (utf8DecodeAux bs).map (((b - 0xC0) * 0x40 + (b2 - 0x80)) :: ·)
      else none := by
  rw [utf8DecodeAux_cons, if_neg h1, if_pos h2]

/-- Decoder shape lemma for a three-byte lead. -/
theorem utf8DecodeAux_three (b b2 b3 : Nat) (bs : List Nat)
    (h1 : ¬(b < 0x80)) (h2 : ¬(b < 0xE0)) (h3 : b < 0xF0) :
    utf8DecodeAux (b :: b2 :: b3 :: bs) =
      if (0x80 ≤ b2 ∧ b2 < 0xC0 ∧ 0x80 ≤ b3 ∧ b3 < 0xC0) ∧
         ¬(b = 0xE0 ∧ b2 < 0xA0) ∧ ¬(b = 0xED ∧ 0xA0 ≤ b2) then
        (utf8DecodeAux bs).map
          (((b - 0xE0) * 0x1000 + (b2 - 0x80) * 0x40 + (b3 - 0x80)) :: ·)
      else none := by
  rw [utf8DecodeAux_cons, if_neg h1, if_neg h2, if_pos h3]

/-- Decoder shape lemma for a four-byte lead. -/
theorem utf8DecodeAux_four (b b2 b3 b4 : Nat) (bs : List Nat)
    (h1 : ¬(b < 0x80)) (h2 : ¬(b < 0xE0)) (h3 : ¬(b < 0xF0)) (h4 : b < 0xF5) :
    utf8DecodeAux (b :: b2 :: b3 :: b4 :: bs) =
      if (0x80 ≤ b2 ∧ b2 < 0xC0 ∧ 0x80 ≤ b3 ∧ b3 < 0xC0 ∧
          0x80 ≤ b4 ∧ b4 < 0xC0) ∧
         ¬(b = 0xF0 ∧ b2 < 0x90) ∧ ¬(b = 0xF4 ∧ 0x90 ≤ b2) then
        (utf8DecodeAux bs).map
          (((b - 0xF0) * 0x40000 + (b2 - 0x80) * 0x1000 + (b3 - 0x80) * 0x40 +
            (b4 - 0x80)) :: ·)
      else none := by
  rw [utf8DecodeAux_cons, if_neg h1, if_neg h2, if_neg h3, if_pos h4]

/-- Decoding the UTF-8 encoding of one valid unicode scalar value (below
`0x110000` and not a surrogate) yields that value and continues with the
remaining bytes. -/
theorem utf8DecodeAux_encodeChar (n : Nat) (h1 : n < 0x110000)
    (h2 : n < 0xD800 ∨ 0xE000 ≤ n) (rest : List Nat) :
    utf8DecodeAux (utf8EncodeChar n ++ rest) =
      (utf8DecodeAux rest).map (n :: ·) := by
  rcases Nat.lt_or_ge n 0x80 with hA | hA
  · have e : utf8EncodeChar n = [n] := by
      unfold utf8EncodeChar
      rw [if_pos hA]
    rw [e, List.cons_append, List.nil_append]
    rw [utf8DecodeAux_one n rest hA]
  · rcases Nat.lt_or_ge n 0x800 with hB | hB
    · have e : utf8EncodeChar n = [0xC0 + n / 0x40, 0x80 + n % 0x40] := by
        unfold utf8EncodeChar
        rw [if_neg (by omega), if_pos hB]
      have k1 : ¬(0xC0 + n / 0x40 < 0x80) := by omega
      have k2 : 0xC0 + n / 0x40 < 0xE0 := by omega
      have k3 : 0xC2 ≤ 0xC0 + n / 0x40 ∧ 0x80 ≤ 0x80 + n % 0x40 ∧
          0x80 + n % 0x40 < 0xC0 := by omega
      rw [e]
      simp only [List.cons_append, List.nil_append]
      rw [utf8DecodeAux_two _ _ _ k1 k2, if_pos k3]
      refine congrFun (congrArg Option.map (funext fun l => ?_)) (utf8DecodeAux rest)
      simp only [List.cons.injEq, and_true]
      omega
    · rcases Nat.lt_or_ge n 0x10000 with hC | hC
      · have e : utf8EncodeChar n =
            [0xE0 + n / 0x1000, 0x80 + n / 0x40 % 0x40, 0x80 + n % 0x40] := by
          unfold utf8EncodeChar
          rw [if_neg (by omega), if_neg (by omega), if_pos hC]
        have k1 : ¬(0xE0 + n / 0x1000 < 0x80) := by omega
        have k2 : ¬(0xE0 + n / 0x1000 < 0xE0) := by omega
        have k3 : 0xE0 + n / 0x1000 < 0xF0 := by omega
        have k4 : (0x80 ≤ 0x80 + n / 0x40 % 0x40 ∧ 0x80 + n / 0x40 % 0x40 < 0xC0 ∧
              0x80 ≤ 0x80 + n % 0x40 ∧ 0x80 + n % 0x40 < 0xC0) ∧
            ¬(0xE0 + n / 0x1000 = 0xE0 ∧ 0x80 + n / 0x40 % 0x40 < 0xA0) ∧
            ¬(0xE0 + n / 0x1000 = 0xED ∧ 0xA0 ≤ 0x80 + n / 0x40 % 0x40) := by
          omega
        rw [e]
        simp only [List.cons_append, List.nil_append]
        rw [utf8DecodeAux_three _ _ _ _ k1 k2 k3, if_pos k4]
        refine congrFun (congrArg Option.map (funext fun l => ?_)) (utf8DecodeAux rest)
        simp only [List.cons.injEq, and_true]
        omega
      · have e : utf8EncodeChar n =
            [0xF0 + n / 0x40000, 0x80 + n / 0x1000 % 0x40, 0x80 + n / 0x40 % 0x40,
             0x80 + n % 0x40] := by
          unfold utf8EncodeChar
          rw [if_neg (by omega), if_neg (by omega), if_neg (by omega)]
        have k1 : ¬(0xF0 + n / 0x40000 < 0x80) := by omega
        have k2 : ¬(0xF0 + n / 0x40000 < 0xE0) := by omega
        have k3 : ¬(0xF0 + n / 0x40000 < 0xF0) := by omega
        have k4 : 0xF0 + n / 0x40000 < 0xF5 := by omega
        have k5 : (0x80 ≤ 0x80 + n / 0x1000 % 0x40 ∧ 0x80 + n / 0x1000 % 0x40 < 0xC0 ∧
              0x80 ≤ 0x80 + n / 0x40 % 0x40 ∧ 0x80 + n / 0x40 % 0x40 < 0xC0 ∧
              0x80 ≤ 0x80 + n % 0x40 ∧ 0x80 + n % 0x40 < 0xC0) ∧
            ¬(0xF0 + n / 0x40000 = 0xF0 ∧ 0x80 + n / 0x1000 % 0x40 < 0x90) ∧
            ¬(0xF0 + n / 0x40000 = 0xF4 ∧ 0x90 ≤ 0x80 + n / 0x1000 % 0x40) := by
          omega
        rw [e]
        simp only [List.cons_append, List.nil_append]
        rw [utf8DecodeAux_four _ _ _ _ _ k1 k2 k3 k4, if_pos k5]
        refine congrFun (congrArg Option.map (funext fun l => ?_)) (utf8DecodeAux rest)
        simp only [List.cons.injEq, and_true]
        omega

/-- Decoding the UTF-8 encoding of a character list yields exactly its
code points. -/
theorem utf8DecodeAux_utf8Encode (cs : List Char) :
    utf8DecodeAux ((cs.map (fun c => utf8EncodeChar c.toNat)).flatten) =
      some (cs.map Char.toNat) := by
  induction cs with
  | nil => rfl
  | cons c cs ih =>
    have hv : c.toNat < 0xd800 ∨ (0xdfff < c.toNat ∧ c.toNat < 0x110000) := c.valid
    rw [List.map_cons, List.flatten_cons,
      utf8DecodeAux_encodeChar c.toNat (by omega) (by omega), ih]
    rfl

/-- C8: a response body that is the UTF-8 encoding of a text is returned
as exactly that text with `is_base64 = false`; a body that is not valid
UTF-8 is returned as the base64 encoding of exactly those bytes with
`is_base64 = true`; the branch is total, never an error. -/
theorem utf8_or_base64 :
    (∀ t : String, normalizeBody (utf8Encode t) = (t, false)) ∧
    (∀ bs : List Nat, utf8Decode bs = none →
      normalizeBody bs = (base64Encode bs, true)) := by
  constructor
  · intro t
    have hl : (t.data.map Char.toNat).map Char.ofNat = t.data := by
      induction t.data with
      | nil => rfl
      | cons c cs ih => simp [ih, Char.ofNat_toNat]
    have hdec : utf8Decode (utf8Encode t) = some t := by
      unfold utf8Decode utf8Encode
      rw [utf8DecodeAux_utf8Encode]
      simp only [Option.map_some']
      rw [hl]
    unfold normalizeBody
    rw [hdec]
  · intro bs h
    unfold normalizeBody
    rw [h]

/-- Witness for C8 at concrete valid and invalid byte bodies. -/
theorem utf8_or_base64_witness :
    normalizeBody (utf8Encode "ok") = ("ok", false) ∧
    utf8Decode [255] = none ∧
    normalizeBody [255] = (base64Encode [255], true) :=
  ⟨utf8_or_base64.1 "ok", rfl, utf8_or_base64.2 [255] rfl⟩

end YuwathiProxy
